import Mathlib

/-!
Verification development for the Blokdoc content-addressed document pipeline.

Shallow embedding of:
  - `createDocumentHash` (src/blockchain/solana: SHA-256 hex digest of content bytes,
    realised here by a full FIPS 180-4 SHA-256 over byte lists),
  - the document-service orchestrators `uploadDocument` / `downloadDocument`
    (README implementation listing of src/services/document/index.ts),
  - the upload service `processFileUpload` and its validators (src/services/document/upload.ts),
  - `validateFile` (src/utils/helpers.ts) and constants (src/utils/constants.ts),
  - the `DocumentCache` (src/services/document/cache.ts),
  - the sharing service `getPermissionLevel` / `hasPermission` (document sharing service).

Effects are made explicit: `Date.now()` and `Math.random()` become parameters,
network calls become function-valued parameters returning `Except`, and the
external calls an orchestrator performs are recorded in a trace list.
-/

namespace Blokdoc

/-! ## SHA-256 (model of Node `crypto.createHash('sha256').digest('hex')`) -/

/-- Truncate to a 32-bit word. -/
def w32 (n : Nat) : Nat := n % 4294967296

/-- 32-bit right rotation. -/
def rotr (n x : Nat) : Nat := (x >>> n) ||| w32 (x <<< (32 - n))

/-- Big-endian byte rendering of `v` on `nBytes` bytes. -/
def bytesBE (nBytes v : Nat) : List Nat :=
  (List.range nBytes).map (fun i => (v >>> (8 * (nBytes - 1 - i))) % 256)

/-- SHA-256 message padding: append 0x80, zeros to 56 mod 64, then the 64-bit bit length. -/
def shaPad (msg : List Nat) : List Nat :=
  msg ++ [128] ++ List.replicate ((119 - msg.length % 64) % 64) 0 ++ bytesBE 8 (8 * msg.length)

/-- Big-endian 32-bit word `i` of a 64-byte block. -/
def wordAt (block : List Nat) (i : Nat) : Nat :=
  16777216 * block.getD (4 * i) 0 + 65536 * block.getD (4 * i + 1) 0 +
    256 * block.getD (4 * i + 2) 0 + block.getD (4 * i + 3) 0

/-- The 64-entry SHA-256 message schedule of one block. -/
def schedule (block : List Nat) : List Nat :=
  (List.range 48).foldl
    (fun ws _ =>
      let i := ws.length
      let x15 := ws.getD (i - 15) 0
      let x2 := ws.getD (i - 2) 0
      let s0 := rotr 7 x15 ^^^ rotr 18 x15 ^^^ (x15 >>> 3)
      let s1 := rotr 17 x2 ^^^ rotr 19 x2 ^^^ (x2 >>> 10)
      ws ++ [w32 (ws.getD (i - 16) 0 + s0 + ws.getD (i - 7) 0 + s1)])
    ((List.range 16).map (wordAt block))

/-- SHA-256 round constants (FIPS 180-4, written in decimal). -/
def shaK : List Nat :=
  [1116352408, 1899447441, 3049323471, 3921009573,
   961987163, 1508970993, 2453635748, 2870763221,
   3624381080, 310598401, 607225278, 1426881987,
   1925078388, 2162078206, 2614888103, 3248222580,
   3835390401, 4022224774, 264347078, 604807628,
   770255983, 1249150122, 1555081692, 1996064986,
   2554220882, 2821834349, 2952996808, 3210313671,
   3336571891, 3584528711, 113926993, 338241895,
   666307205, 773529912, 1294757372, 1396182291,
   1695183700, 1986661051, 2177026350, 2456956037,
   2730485921, 2820302411, 3259730800, 3345764771,
   3516065817, 3600352804, 4094571909, 275423344,
   430227734, 506948616, 659060556, 883997877,
   958139571, 1322822218, 1537002063, 1747873779,
   1955562222, 2024104815, 2227730452, 2361852424,
   2428436474, 2756734187, 3204031479, 3329325298]

/-- SHA-256 initial hash value (FIPS 180-4, written in decimal). -/
def initH : List Nat :=
  [1779033703, 3144134277, 1013904242, 2773480762,
   1359893119, 2600822924, 528734635, 1541459225]

/-- One SHA-256 compression round: registers `[a,b,c,d,e,f,g,h]`, `kw = K[i] + W[i]`. -/
def shaRound (r : List Nat) (kw : Nat) : List Nat :=
  let a := r.getD 0 0
  let b := r.getD 1 0
  let c := r.getD 2 0
  let d := r.getD 3 0
  let e := r.getD 4 0
  let f := r.getD 5 0
  let g := r.getD 6 0
  let h := r.getD 7 0
  let s1 := rotr 6 e ^^^ rotr 11 e ^^^ rotr 25 e
  let ch := (e &&& f) ^^^ ((e ^^^ 4294967295) &&& g)
  let t1 := w32 (h + s1 + ch + kw)
  let s0 := rotr 2 a ^^^ rotr 13 a ^^^ rotr 22 a
  let maj := (a &&& b) ^^^ (a &&& c) ^^^ (b &&& c)
  let t2 := w32 (s0 + maj)
  [w32 (t1 + t2), a, b, c, w32 (d + t1), e, f, g]

/-- Compress one 64-byte block into the running hash value (8 words). -/
def compressBlock (hv block : List Nat) : List Nat :=
  let final := ((schedule block).zip shaK).foldl (fun r p => shaRound r (w32 (p.2 + p.1))) hv
  List.zipWith (fun x y => w32 (x + y)) hv final

/-- SHA-256 of a byte list, as the 8 final 32-bit words. -/
def sha256 (msg : List Nat) : List Nat :=
  let p := shaPad msg
  (List.range (p.length / 64)).foldl
    (fun hv i => compressBlock hv ((p.drop (64 * i)).take 64)) initH

/-- Lower-case hex digit for a nibble. -/
def hexChar (n : Nat) : Char :=
  if n < 10 then Char.ofNat (48 + n) else Char.ofNat (87 + n)

/-- Fixed-width (8 hex digits) rendering of one 32-bit word. -/
def wordToHex (w : Nat) : List Char :=
  (List.range 8).map (fun i => hexChar ((w >>> (28 - 4 * i)) % 16))

/-- `digest('hex')`: the 64-character lower-case hex digest. -/
def toHex (ws : List Nat) : String :=
  String.mk ((ws.map wordToHex).flatten)

/-- `createDocumentHash` (blockchain/solana document module): SHA-256 hex digest of
the content bytes. Pure and total by construction. -/
def createDocumentHash (content : List Nat) : String :=
  toHex (sha256 content)

/-! ## Constants (src/utils/constants.ts) -/

/-- `MAX_FILE_SIZE` from src/utils/constants.ts: 50 MB. -/
def MAX_FILE_SIZE : Nat := 50 * 1024 * 1024

/-- `SUPPORTED_FILE_TYPES` from src/utils/constants.ts. -/
def SUPPORTED_FILE_TYPES : List String :=
  ["application/pdf",
   "application/msword",
   "application/vnd.openxmlformats-officedocument.wordprocessingml.document",
   "application/vnd.ms-excel",
   "application/vnd.openxmlformats-officedocument.spreadsheetml.sheet",
   "application/vnd.ms-powerpoint",
   "application/vnd.openxmlformats-officedocument.presentationml.presentation",
   "text/plain",
   "text/markdown",
   "application/json",
   "image/jpeg",
   "image/png",
   "image/svg+xml"]

/-! ## File input and validation (src/utils/helpers.ts) -/

/-- A browser `File` as the document service consumes it: declared size and MIME
type are separate fields of the object, the content bytes are what
`readFileAsBuffer` yields. -/
structure FileInput where
  name : String
  type : String
  size : Nat
  lastModified : Nat := 0
  content : List Nat := []

/-- The reason `validateFile` reports an invalid file. The human-readable message
text built from it in the source is elided. -/
inductive FileValidationIssue
  | fileTooLarge
  | unsupportedType
deriving DecidableEq, Repr

/-- Result shape of `validateFile`: valid flag plus optional message. -/
structure ValidationResult where
  valid : Bool
  message : Option FileValidationIssue
deriving DecidableEq, Repr

/-- `validateFile` (src/utils/helpers.ts): size checked first with a strict
comparison against `MAX_FILE_SIZE`, then membership of the declared MIME type in
`SUPPORTED_FILE_TYPES`. -/
def validateFile (file : FileInput) : ValidationResult :=
  if file.size > MAX_FILE_SIZE then
    { valid := false, message := some .fileTooLarge }
  else if ¬ (file.type ∈ SUPPORTED_FILE_TYPES) then
    { valid := false, message := some .unsupportedType }
  else
    { valid := true, message := none }

/-! ## Document data model (src/types/index.ts) -/

/-- Document status; the types file declares active/archived, and the upload
service additionally assigns the initial processing state. -/
inductive DocStatus
  | processing
  | active
  | archived
deriving DecidableEq, Repr

/-- `DocumentStorageInfo` (src/types/index.ts). -/
structure DocumentStorageInfo where
  ipfsCid : Option String := none
  arweaveTxId : Option String := none
  solanaSignature : Option String := none
  documentPDA : Option String := none
deriving DecidableEq, Repr

/-- `Document` (src/types/index.ts). The untyped `metadata` bag is elided. -/
structure Document where
  id : String
  name : String
  description : Option String := none
  fileType : String
  fileSize : Nat
  createdAt : Nat
  updatedAt : Nat
  storageInfo : DocumentStorageInfo
  owner : String
  version : Nat
  status : DocStatus
  collaborators : Option (List String) := none
  tags : Option (List String) := none
deriving DecidableEq, Repr

/-! ## Upload/download orchestrators (services/document/index.ts, per the
implementation listing in the repository README) -/

/-- The two storage backends selectable via `options.preferredStorage`. -/
inductive StorageChoice
  | ipfs
  | arweave
deriving DecidableEq, Repr

/-- `metadata` argument of `uploadDocument`. -/
structure UploadMeta where
  name : Option String := none
  description : Option String := none
  tags : Option (List String) := none

/-- `options` argument of `uploadDocument`; absent fields are `none`. -/
structure UploadOptions where
  preferredStorage : Option StorageChoice := none
  registerOnChain : Option Bool := none

/-- The duck-typed wallet object: optional public key and optional Arweave key. -/
structure Wallet where
  publicKey : Option String := none
  arweaveJwk : Option String := none

/-- External calls an orchestrator performs, recorded in order. -/
inductive ExtCall
  | ipfsPut
  | arweavePut
  | ledgerRegister
  | ipfsGet
  | arweaveGet
deriving DecidableEq, Repr

/-- Ways `uploadDocument` (or `registerDocument`, which it awaits) throws. -/
inductive UploadFailure
  | validationFailed (issue : FileValidationIssue)
  | ipfsUploadFailed
  | arweaveWalletMissing
  | arweaveUploadFailed
  | walletNotConnected
  | registrationFailed
deriving DecidableEq, Repr

/-- `registerDocument` (blockchain/solana document module): rejects a wallet with
no public key, then performs the chain transaction (the opaque network
interaction is the `ledger` parameter); any rejection is rethrown. -/
def registerDocument (wallet : Wallet)
    (ledger : String → String → String → Except Unit String)
    (documentHash documentName documentType : String) : Except UploadFailure String :=
  match wallet.publicKey with
  | none => .error .walletNotConnected
  | some _ =>
    match ledger documentHash documentName documentType with
    | .ok tx => .ok tx
    | .error _ => .error .registrationFailed

/-- The storage step of `uploadDocument`: IPFS when `preferredStorage` is unset
or ipfs, Arweave (requiring `wallet.arweaveJwk`) when it is arweave; a backend
rejection is rethrown and aborts the upload. -/
def storagePhase (fileContent : List Nat) (wallet : Wallet)
    (options : UploadOptions)
    (ipfsPut arweavePut : List Nat → Except Unit String) :
    Except UploadFailure DocumentStorageInfo × List ExtCall :=
  match options.preferredStorage with
  | some .arweave =>
    match wallet.arweaveJwk with
    | none => (.error .arweaveWalletMissing, [])
    | some _ =>
      match arweavePut fileContent with
      | .ok txId => (.ok { arweaveTxId := some txId }, [.arweavePut])
      | .error _ => (.error .arweaveUploadFailed, [.arweavePut])
  | _ =>
    match ipfsPut fileContent with
    | .ok cid => (.ok { ipfsCid := some cid }, [.ipfsPut])
    | .error _ => (.error .ipfsUploadFailed, [.ipfsPut])

/-- `uploadDocument` (services/document/index.ts): validate, hash, store on the
preferred backend, optionally register on chain (`registerOnChain !== false`),
and assemble the active document whose `id` is the content hash. `now` stands
for `Date.now()`; the result is paired with the trace of external calls. -/
def uploadDocument (file : FileInput) (wallet : Wallet)
    (metadata : UploadMeta) (options : UploadOptions)
    (ipfsPut : List Nat → Except Unit String)
    (arweavePut : List Nat → Except Unit String)
    (ledger : String → String → String → Except Unit String)
    (now : Nat) : Except UploadFailure Document × List ExtCall :=
  let validation := validateFile file
  if validation.valid = false then
    (.error (.validationFailed (validation.message.getD .fileTooLarge)), [])
  else
    let fileContent := file.content
    let documentHash := createDocumentHash fileContent
    match storagePhase fileContent wallet options ipfsPut arweavePut with
    | (.error e, trace) => (.error e, trace)
    | (.ok storageInfo, trace) =>
      if options.registerOnChain ≠ some false then
        match registerDocument wallet ledger documentHash
            (metadata.name.getD file.name) file.type with
        | .error e => (.error e, trace ++ [.ledgerRegister])
        | .ok signature =>
          (.ok { id := documentHash
                 name := metadata.name.getD file.name
                 description := metadata.description
                 fileType := file.type
                 fileSize := file.size
                 createdAt := now
                 updatedAt := now
                 storageInfo := { storageInfo with solanaSignature := some signature }
                 owner := wallet.publicKey.getD ""
                 version := 1
                 status := .active
                 tags := metadata.tags },
           trace ++ [.ledgerRegister])
      else
        (.ok { id := documentHash
               name := metadata.name.getD file.name
               description := metadata.description
               fileType := file.type
               fileSize := file.size
               createdAt := now
               updatedAt := now
               storageInfo := storageInfo
               owner := wallet.publicKey.getD ""
               version := 1
               status := .active
               tags := metadata.tags },
         trace)

/-- How `downloadDocument` throws. -/
inductive DownloadFailure
  | allStorageFailed
  | noStorageInfo
deriving DecidableEq, Repr

/-- The Arweave leg of `downloadDocument`: reached when IPFS is absent or its
fetch threw; failing it (or having no locator at all) ends the operation. -/
def downloadArweaveLeg (doc : Document)
    (arweaveGet : String → Except Unit (List Nat)) :
    Except DownloadFailure (List Nat) × List ExtCall :=
  match doc.storageInfo.arweaveTxId with
  | some txId =>
    match arweaveGet txId with
    | .ok bytes => (.ok bytes, [.arweaveGet])
    | .error _ => (.error .allStorageFailed, [.arweaveGet])
  | none => (.error .noStorageInfo, [])

/-- `downloadDocument` (services/document/index.ts): try IPFS when a CID is
recorded, fall through to Arweave on failure, and return the fetched bytes.
The result is paired with the trace of backend fetches. -/
def downloadDocument (doc : Document)
    (ipfsGet arweaveGet : String → Except Unit (List Nat)) :
    Except DownloadFailure (List Nat) × List ExtCall :=
  match doc.storageInfo.ipfsCid with
  | some cid =>
    match ipfsGet cid with
    | .ok bytes => (.ok bytes, [.ipfsGet])
    | .error _ =>
      let rest := downloadArweaveLeg doc arweaveGet
      (rest.1, .ipfsGet :: rest.2)
  | none => downloadArweaveLeg doc arweaveGet

/-! ## Upload service (src/services/document/upload.ts) -/

namespace UploadSvc

/-- `MAX_FILE_SIZE` local to src/services/document/upload.ts: 10 MB. -/
def MAX_FILE_SIZE : Nat := 10 * 1024 * 1024

/-- `ALLOWED_FILE_TYPES`: extension to expected MIME type. -/
def ALLOWED_FILE_TYPES : List (String × String) :=
  [("pdf", "application/pdf"),
   ("doc", "application/msword"),
   ("docx", "application/vnd.openxmlformats-officedocument.wordprocessingml.document"),
   ("xls", "application/vnd.ms-excel"),
   ("xlsx", "application/vnd.openxmlformats-officedocument.spreadsheetml.sheet"),
   ("ppt", "application/vnd.ms-powerpoint"),
   ("pptx", "application/vnd.openxmlformats-officedocument.presentationml.presentation"),
   ("txt", "text/plain"),
   ("jpg", "image/jpeg"),
   ("jpeg", "image/jpeg"),
   ("png", "image/png"),
   ("gif", "image/gif")]

/-- `UploadErrorType` enum. -/
inductive UploadErrorType
  | FILE_TOO_LARGE
  | INVALID_FILE_TYPE
  | VALIDATION_FAILED
  | VIRUS_DETECTED
  | UPLOAD_FAILED
  | STORAGE_ERROR
deriving DecidableEq, Repr

/-- `validateFileSize`: throws `FILE_TOO_LARGE` on a strictly-greater size;
`maxSize` defaults to the local 10 MB `MAX_FILE_SIZE`. -/
def validateFileSize (size : Nat) (maxSize : Nat := MAX_FILE_SIZE) :
    Except UploadErrorType Unit :=
  if size > maxSize then .error .FILE_TOO_LARGE else .ok ()

/-- Character-level `split(sep)`: the groups of characters between occurrences
of `sep`, in order (always at least one group, as in JS). -/
def splitOnChar (sep : Char) : List Char → List (List Char)
  | [] => [[]]
  | c :: rest =>
    let r := splitOnChar sep rest
    if c = sep then [] :: r
    else (c :: r.headD []) :: r.tail

/-- `fileName.split('.').pop()?.toLowerCase() || ''` as used by the upload
service (same computation as `getFileExtension` in src/utils/helpers.ts),
spelled on the character list of the string. -/
def getFileExtension (fileName : String) : String :=
  String.mk ((((splitOnChar '.' fileName.data).getLast?).getD []).map Char.toLower)

/-- `validateFileType`: the extension must be a key of `ALLOWED_FILE_TYPES` and
the declared MIME type must be exactly the one expected for that extension. -/
def validateFileType (fileName mimeType : String) : Except UploadErrorType Unit :=
  let extension := getFileExtension fileName
  match List.lookup extension ALLOWED_FILE_TYPES with
  | none => .error .INVALID_FILE_TYPE
  | some expectedMimeType =>
    if mimeType ≠ expectedMimeType then .error .INVALID_FILE_TYPE else .ok ()

/-- `calculateFileHash`: the source is an explicit mock that draws 64 random hex
digits (`Math.floor(Math.random() * 16).toString(16)`); the randomness source
becomes the `rand` parameter, and the content buffer is ignored exactly as the
source ignores it. -/
def calculateFileHash (fileBuffer : List Nat) (rand : Nat → Nat) : String :=
  String.mk ((List.range 64).map (fun i => hexChar (rand i % 16)))

/-- `FileMetadata` of the upload service; `uploadedAt` is the `Date` value as a
timestamp. -/
structure FileMetadata where
  originalName : String
  size : Nat
  mimeType : String
  extension : String
  hash : Option String := none
  uploadedBy : String
  uploadedAt : Nat
deriving DecidableEq, Repr

/-- `storeFile`: mock storage returning
`storage/<uploadedBy>/<Date.now()>-<originalName>`. -/
def storeFile (metadata : FileMetadata) (now : Nat) : String :=
  "storage/" ++ metadata.uploadedBy ++ "/" ++ toString now ++ "-" ++ metadata.originalName

/-- The `storageInfo` shape the upload service puts on its document records. -/
structure StorageRecord where
  location : String
  hash : String
  originalName : String
deriving DecidableEq, Repr

/-- The document record `processFileUpload` assembles (the `Document` of
services/document/index.ts as that file uses it). -/
structure SvcDocument where
  id : String
  name : String
  description : String
  fileType : String
  fileSize : Nat
  createdAt : Nat
  updatedAt : Nat
  storageInfo : StorageRecord
  owner : String
  version : Nat
  status : DocStatus
  tags : List String
deriving DecidableEq, Repr

/-- `UploadResult`. -/
structure UploadResult where
  success : Bool
  document : Option SvcDocument := none
  error : Option UploadErrorType := none
  metadata : FileMetadata
  storageLocation : String
deriving DecidableEq, Repr

/-- The failure result `processFileUpload` builds in its catch branch. -/
def failureResult (fileName mimeType : String) (size : Nat) (uploadedBy : String)
    (tNow : Nat) (e : UploadErrorType) : UploadResult :=
  { success := false
    error := some e
    metadata :=
      { originalName := fileName
        size := size
        mimeType := mimeType
        extension := getFileExtension fileName
        uploadedBy := uploadedBy
        uploadedAt := tNow }
    storageLocation := "" }

/-- `processFileUpload`: validate size and type, virus-scan (the mock scan
outcome becomes `isSafe`), compute the mock hash, store, and assemble a record
with `id = doc-<Date.now()>-<rand>` in `processing` status. `tNow` stands for
the `Date` readings and `randId` for `Math.floor(Math.random() * 1000)`. -/
def processFileUpload (fileBuffer : List Nat) (fileName mimeType : String)
    (size : Nat) (uploadedBy : String) (isSafe : Bool) (rand : Nat → Nat)
    (tNow : Nat) (randId : Nat) : UploadResult :=
  match validateFileSize size with
  | .error e => failureResult fileName mimeType size uploadedBy tNow e
  | .ok _ =>
    match validateFileType fileName mimeType with
    | .error e => failureResult fileName mimeType size uploadedBy tNow e
    | .ok _ =>
      if isSafe = false then
        failureResult fileName mimeType size uploadedBy tNow .VIRUS_DETECTED
      else
        let hash := calculateFileHash fileBuffer rand
        let metadata : FileMetadata :=
          { originalName := fileName
            size := size
            mimeType := mimeType
            extension := getFileExtension fileName
            hash := some hash
            uploadedBy := uploadedBy
            uploadedAt := tNow }
        let storageLocation := storeFile metadata tNow
        let document : SvcDocument :=
          { id := "doc-" ++ toString tNow ++ "-" ++ toString randId
            name := fileName
            description := ""
            fileType := metadata.extension
            fileSize := size
            createdAt := tNow
            updatedAt := tNow
            storageInfo :=
              { location := storageLocation
                hash := hash
                originalName := fileName }
            owner := uploadedBy
            version := 1
            status := .processing
            tags := [] }
        { success := true
          document := some document
          metadata := metadata
          storageLocation := storageLocation }

end UploadSvc

/-! ## Sharing service (document sharing module) -/

/-- `PermissionLevel` enum. -/
inductive PermissionLevel
  | VIEWER
  | COMMENTER
  | EDITOR
  | OWNER
deriving DecidableEq, Repr

/-- The one wallet address the sharing service compares against. -/
def OWNER_WALLET : String := "BWDKZpACPidQNXXK6K9HGLVWsrjhSPdBGDBHVt3JvjYJ"

/-- `getPermissionLevel`: OWNER for the hardcoded address, VIEWER for everyone
else. The `null` branch of the source lives in a catch block that the pure body
can never reach. -/
def getPermissionLevel (documentId userId : String) : Option PermissionLevel :=
  some (if userId = OWNER_WALLET then .OWNER else .VIEWER)

/-- `hasPermission`: permission hierarchy check over `getPermissionLevel`. -/
def hasPermission (documentId userId : String)
    (requiredPermission : PermissionLevel) : Bool :=
  match getPermissionLevel documentId userId with
  | none => false
  | some userPermission =>
    match requiredPermission with
    | .VIEWER => true
    | .COMMENTER => userPermission ≠ .VIEWER
    | .EDITOR => userPermission = .EDITOR ∨ userPermission = .OWNER
    | .OWNER => userPermission = .OWNER

/-! ## Document cache (src/services/document/cache.ts) -/

/-- Default cache entry expiration: 15 minutes in milliseconds. -/
def DEFAULT_CACHE_EXPIRATION : Nat := 15 * 60 * 1000

/-- `CacheItem<T>`. -/
structure CacheItem (α : Type) where
  data : α
  timestamp : Nat
  expiresAt : Nat
deriving DecidableEq, Repr

/-- A JS `Map` keyed by strings, in insertion order. -/
abbrev CacheMap (α : Type) : Type := List (String × CacheItem α)

/-- `CacheConfig`. -/
structure CacheConfig where
  maxSize : Nat
  defaultExpiration : Nat
deriving DecidableEq, Repr

/-- The `DocumentCache` constructor defaults: `config?.maxSize || 50` and
`config?.defaultExpiration || DEFAULT_CACHE_EXPIRATION` (JS `||`, so an
explicit 0 also falls back to the default). -/
def mkCacheConfig (maxSize? defaultExpiration? : Option Nat) : CacheConfig :=
  { maxSize :=
      match maxSize? with
      | some n => if n = 0 then 50 else n
      | none => 50
    defaultExpiration :=
      match defaultExpiration? with
      | some n => if n = 0 then DEFAULT_CACHE_EXPIRATION else n
      | none => DEFAULT_CACHE_EXPIRATION }

/-- `Map.set` semantics: overwrite in place when the key exists, append
otherwise. -/
def mapSet {α : Type} (m : CacheMap α) (key : String) (item : CacheItem α) :
    CacheMap α :=
  if m.any (fun e => e.1 == key) then
    m.map (fun e => if e.1 == key then (key, item) else e)
  else
    m ++ [(key, item)]

/-- `removeOldestItems(count)`: sort the entries by `timestamp` ascending (a
stable sort, as `Array.prototype.sort` is) and delete the first `count` keys. -/
def removeOldestItems {α : Type} (m : CacheMap α) (count : Nat) : CacheMap α :=
  let sorted := m.mergeSort (fun a b => a.2.timestamp ≤ b.2.timestamp)
  (sorted.take count).foldl (fun acc e => acc.eraseP (fun x => x.1 == e.1)) m

/-- `setDocument`: evict the single oldest entry when at or above capacity, then
insert with `expiresAt = now + (expiration || defaultExpiration)`. `now` stands
for `Date.now()`. -/
def setDocument (config : CacheConfig) (m : CacheMap Document)
    (documentId : String) (document : Document) (now : Nat)
    (expiration : Option Nat) : CacheMap Document :=
  let m1 := if m.length ≥ config.maxSize then removeOldestItems m 1 else m
  let expirationTime :=
    match expiration with
    | some e => if e = 0 then config.defaultExpiration else e
    | none => config.defaultExpiration
  mapSet m1 documentId
    { data := document, timestamp := now, expiresAt := now + expirationTime }

/-- A sequence of `setDocument` calls (no per-call expiration), the scenario of
the eviction-bound property. -/
def setAll (config : CacheConfig) (m : CacheMap Document)
    (es : List (String × Document × Nat)) : CacheMap Document :=
  es.foldl (fun acc e => setDocument config acc e.1 e.2.1 e.2.2 none) m

/-- The cache state holding exactly the given (key, document, insertion time)
entries, in order, with default expirations. -/
def entriesOf (config : CacheConfig) (es : List (String × Document × Nat)) :
    CacheMap Document :=
  es.map (fun e =>
    (e.1, { data := e.2.1, timestamp := e.2.2,
            expiresAt := e.2.2 + config.defaultExpiration }))

/-- Observer: the document of a successful orchestrator result. -/
def resultDoc (r : Except UploadFailure Document × List ExtCall) : Option Document :=
  r.1.toOption

/-! ## Digest shape lemmas -/

theorem length_shaRound (r : List Nat) (kw : Nat) : (shaRound r kw).length = 8 := rfl

theorem length_foldl_shaRound (l : List (Nat × Nat)) :
    ∀ r : List Nat, (l.foldl (fun acc p => shaRound acc (w32 (p.2 + p.1))) r).length = 8 ∨
      l.foldl (fun acc p => shaRound acc (w32 (p.2 + p.1))) r = r := by
  induction l with
  | nil => intro r; exact Or.inr rfl
  | cons a t ih =>
    intro r
    rcases ih (shaRound r (w32 (a.2 + a.1))) with h | h
    · exact Or.inl (by simpa using h)
    · exact Or.inl (by simp [List.foldl_cons, h, length_shaRound])

theorem length_compressBlock (hv block : List Nat) (h : hv.length = 8) :
    (compressBlock hv block).length = 8 := by
  unfold compressBlock
  rcases length_foldl_shaRound ((schedule block).zip shaK) hv with hf | hf <;>
    simp [List.length_zipWith, h, hf]

theorem length_foldl_compress (p : List Nat) (l : List Nat) :
    ∀ hv : List Nat, hv.length = 8 →
      (l.foldl (fun hv i => compressBlock hv ((p.drop (64 * i)).take 64)) hv).length = 8 := by
  induction l with
  | nil => intro hv h; simpa using h
  | cons a t ih =>
    intro hv h
    simpa using ih _ (length_compressBlock hv _ h)

theorem length_sha256 (msg : List Nat) : (sha256 msg).length = 8 :=
  length_foldl_compress _ _ initH rfl

theorem length_wordToHex (w : Nat) : (wordToHex w).length = 8 := by
  simp [wordToHex]

theorem length_flatten_hex (ws : List Nat) :
    ((ws.map wordToHex).flatten).length = 8 * ws.length := by
  induction ws with
  | nil => simp
  | cons a t ih =>
    simp [ih, length_wordToHex]
    ring

/-- The digest of `createDocumentHash` always has 64 characters. -/
theorem length_createDocumentHash (content : List Nat) :
    (createDocumentHash content).length = 64 := by
  show ((sha256 content).map wordToHex).flatten.length = 64
  rw [length_flatten_hex, length_sha256]

/-! ## Claim theorems -/

/-- C9: `getPermissionLevel` returns OWNER for the single hardcoded wallet
address and VIEWER for every other user (never null on the non-error path), and
`hasPermission` at VIEWER level therefore grants access to every user on every
document. -/
theorem Claim9_viewer_access_never_denied (documentId userId : String) :
    getPermissionLevel documentId userId =
      some (if userId = OWNER_WALLET then PermissionLevel.OWNER else PermissionLevel.VIEWER) ∧
    hasPermission documentId userId PermissionLevel.VIEWER = true := by
  refine ⟨rfl, ?_⟩
  simp [hasPermission, getPermissionLevel]

/-- C10: both size validators use a strict comparison, so a file of exactly the
configured maximum passes: `validateFile` accepts size `MAX_FILE_SIZE` for a
supported type and rejects exactly when size exceeds it; `validateFileSize`
throws exactly when size exceeds its `maxSize` (its default being the upload
service's own `MAX_FILE_SIZE`), so it accepts at the boundary. -/
theorem Claim10_size_boundary_inclusive (name ty : String) (size lm : Nat)
    (content : List Nat) :
    ((validateFile ⟨name, ty, size, lm, content⟩).valid = true ↔
        size ≤ MAX_FILE_SIZE ∧ ty ∈ SUPPORTED_FILE_TYPES) ∧
    (ty ∈ SUPPORTED_FILE_TYPES →
        (validateFile ⟨name, ty, MAX_FILE_SIZE, lm, content⟩).valid = true) ∧
    UploadSvc.validateFileSize UploadSvc.MAX_FILE_SIZE = .ok () ∧
    (∀ maxSize, UploadSvc.validateFileSize size maxSize = .ok () ↔ size ≤ maxSize) := by
  refine ⟨?_, ?_, ?_, ?_⟩
  · by_cases h1 : size > MAX_FILE_SIZE <;> by_cases h2 : ty ∈ SUPPORTED_FILE_TYPES <;>
      simp [validateFile, h1, h2] <;> omega
  · intro h2
    simp [validateFile, h2]
  · simp [UploadSvc.validateFileSize]
  · intro maxSize
    by_cases h : size > maxSize <;> simp [UploadSvc.validateFileSize, h] <;> omega

/-- C10 witness: at exactly the configured maxima both validators accept. -/
theorem Claim10_witness :
    (validateFile ⟨"a.pdf", "application/pdf", MAX_FILE_SIZE, 0, []⟩).valid = true ∧
    UploadSvc.validateFileSize UploadSvc.MAX_FILE_SIZE = .ok () := by
  refine ⟨?_, ?_⟩
  · exact (Claim10_size_boundary_inclusive "a.pdf" "application/pdf" 0 0 []).2.1 (by decide)
  · exact (Claim10_size_boundary_inclusive "a.pdf" "application/pdf" 0 0 []).2.2.1

/-- C7: an oversize input fails immediately as file-too-large and an input of
unsupported declared type fails immediately as unsupported-type, in both cases
with an empty external-call trace — no storage backend or ledger call happens —
and with an outcome that is the same for every choice of backend and ledger
functions (it depends only on the input). -/
theorem Claim7_validation_before_network (file : FileInput) (wallet : Wallet)
    (metadata : UploadMeta) (options : UploadOptions)
    (ipfsPut arweavePut : List Nat → Except Unit String)
    (ledger : String → String → String → Except Unit String) (now : Nat) :
    (file.size > MAX_FILE_SIZE →
      uploadDocument file wallet metadata options ipfsPut arweavePut ledger now =
        (.error (.validationFailed .fileTooLarge), [])) ∧
    (¬ file.type ∈ SUPPORTED_FILE_TYPES → file.size ≤ MAX_FILE_SIZE →
      uploadDocument file wallet metadata options ipfsPut arweavePut ledger now =
        (.error (.validationFailed .unsupportedType), [])) := by
  constructor
  · intro hsz
    have hv : validateFile file = { valid := false, message := some .fileTooLarge } := by
      simp [validateFile, hsz]
    unfold uploadDocument
    rw [hv]
    rfl
  · intro hty hsz
    have hns : ¬ (file.size > MAX_FILE_SIZE) := by omega
    have hv : validateFile file = { valid := false, message := some .unsupportedType } := by
      simp [validateFile, hns, hty]
    unfold uploadDocument
    rw [hv]
    rfl

/-- C7 witness: an oversize file is rejected before any backend call. -/
theorem Claim7_witness :
    uploadDocument ⟨"a.pdf", "application/pdf", MAX_FILE_SIZE + 1, 0, []⟩
        { publicKey := some "W" } {} {} (fun _ => .ok "cid") (fun _ => .ok "tx")
        (fun _ _ _ => .ok "sig") 0 =
      (.error (.validationFailed .fileTooLarge), []) :=
  (Claim7_validation_before_network _ _ _ _ _ _ _ _).1 (by decide)

/-- C3: with both locators recorded and the IPFS fetch failing,
`downloadDocument` tries Arweave next (each backend exactly once, no retry):
if Arweave yields bytes the operation succeeds with exactly those bytes and no
error surfaces; if Arweave also fails, the single terminal all-backends-failed
error is returned. -/
theorem Claim3_fallback_order (doc : Document)
    (ipfsGet arweaveGet : String → Except Unit (List Nat)) (cid txId : String)
    (hcid : doc.storageInfo.ipfsCid = some cid)
    (htx : doc.storageInfo.arweaveTxId = some txId)
    (hfail : ipfsGet cid = .error ()) :
    (∀ bytes, arweaveGet txId = .ok bytes →
        downloadDocument doc ipfsGet arweaveGet =
          (.ok bytes, [.ipfsGet, .arweaveGet])) ∧
    (arweaveGet txId = .error () →
        downloadDocument doc ipfsGet arweaveGet =
          (.error .allStorageFailed, [.ipfsGet, .arweaveGet])) := by
  constructor
  · intro bytes hok
    simp [downloadDocument, hcid, hfail, downloadArweaveLeg, htx, hok]
  · intro herr
    simp [downloadDocument, hcid, hfail, downloadArweaveLeg, htx, herr]

/-- A successful storage phase records exactly one locator and never a chain
signature. -/
theorem storagePhase_ok_shape (fileContent : List Nat) (wallet : Wallet)
    (options : UploadOptions)
    (ipfsPut arweavePut : List Nat → Except Unit String)
    (si : DocumentStorageInfo) (trace : List ExtCall)
    (h : storagePhase fileContent wallet options ipfsPut arweavePut = (.ok si, trace)) :
    (si.ipfsCid.isSome = true ∨ si.arweaveTxId.isSome = true) ∧
    si.solanaSignature = none := by
  unfold storagePhase at h
  repeat' split at h
  all_goals simp_all
  all_goals obtain ⟨h1, -⟩ := h
  all_goals subst h1
  all_goals simp

/-- Every successful `uploadDocument` result is an active, version-1 record
whose `id` is the SHA-256 digest of the uploaded content and which carries at
least one storage locator. -/
theorem uploadDocument_ok_shape (file : FileInput) (wallet : Wallet)
    (metadata : UploadMeta) (options : UploadOptions)
    (ipfsPut arweavePut : List Nat → Except Unit String)
    (ledger : String → String → String → Except Unit String) (now : Nat)
    (d : Document)
    (h : resultDoc (uploadDocument file wallet metadata options ipfsPut arweavePut ledger now)
        = some d) :
    d.id = createDocumentHash file.content ∧ d.status = DocStatus.active ∧
    (d.storageInfo.ipfsCid.isSome = true ∨ d.storageInfo.arweaveTxId.isSome = true) ∧
    d.version = 1 := by
  unfold resultDoc at h
  simp only [uploadDocument] at h
  split at h
  · simp [Except.toOption] at h
  · split at h
    next e trace heq => simp [Except.toOption] at h
    next si trace heq =>
      split at h
      · split at h
        next e heq2 => simp [Except.toOption] at h
        next s heq2 =>
          simp [Except.toOption] at h
          subst h
          rcases storagePhase_ok_shape _ _ _ _ _ _ _ heq with ⟨hloc, _⟩
          simpa using hloc
      · simp [Except.toOption] at h
        subst h
        rcases storagePhase_ok_shape _ _ _ _ _ _ _ heq with ⟨hloc, _⟩
        simpa using hloc

/-- With a valid file and a successful IPFS put, `uploadDocument` under
`registerOnChain = false` returns the assembled active record (no chain
signature) after exactly one external call. -/
theorem uploadDocument_reg_off (file : FileInput) (wallet : Wallet)
    (metadata : UploadMeta) (options : UploadOptions)
    (ipfsPut arweavePut : List Nat → Except Unit String)
    (ledger : String → String → String → Except Unit String) (now : Nat)
    (cid : String)
    (hv : (validateFile file).valid = true)
    (hps : options.preferredStorage ≠ some StorageChoice.arweave)
    (hput : ipfsPut file.content = .ok cid)
    (hro : options.registerOnChain = some false) :
    uploadDocument file wallet metadata options ipfsPut arweavePut ledger now =
      (.ok { id := createDocumentHash file.content
             name := metadata.name.getD file.name
             description := metadata.description
             fileType := file.type
             fileSize := file.size
             createdAt := now
             updatedAt := now
             storageInfo := { ipfsCid := some cid }
             owner := wallet.publicKey.getD ""
             version := 1
             status := .active
             tags := metadata.tags }, [.ipfsPut]) := by
  have hsp : storagePhase file.content wallet options ipfsPut arweavePut =
      (.ok { ipfsCid := some cid }, [.ipfsPut]) := by
    unfold storagePhase
    rcases h : options.preferredStorage with _ | c
    · simp [hput]
    · cases c
      · simp [hput]
      · exact absurd h hps
  simp [uploadDocument, hv, hsp, hro]

/-- With a valid file, a successful IPFS put, a connected wallet and
registration requested, `uploadDocument` succeeds exactly when the ledger
accepts, and rethrows a ledger rejection as a failure of the whole upload. -/
theorem uploadDocument_reg_on (file : FileInput) (wallet : Wallet)
    (metadata : UploadMeta) (options : UploadOptions)
    (ipfsPut arweavePut : List Nat → Except Unit String)
    (ledger : String → String → String → Except Unit String) (now : Nat)
    (cid pk : String)
    (hv : (validateFile file).valid = true)
    (hps : options.preferredStorage ≠ some StorageChoice.arweave)
    (hput : ipfsPut file.content = .ok cid)
    (hro : options.registerOnChain ≠ some false)
    (hpk : wallet.publicKey = some pk) :
    (∀ s, ledger (createDocumentHash file.content) (metadata.name.getD file.name) file.type
          = .ok s →
      uploadDocument file wallet metadata options ipfsPut arweavePut ledger now =
        (.ok { id := createDocumentHash file.content
               name := metadata.name.getD file.name
               description := metadata.description
               fileType := file.type
               fileSize := file.size
               createdAt := now
               updatedAt := now
               storageInfo := { ipfsCid := some cid, solanaSignature := some s }
               owner := wallet.publicKey.getD ""
               version := 1
               status := .active
               tags := metadata.tags }, [.ipfsPut, .ledgerRegister])) ∧
    (ledger (createDocumentHash file.content) (metadata.name.getD file.name) file.type
          = .error () →
      uploadDocument file wallet metadata options ipfsPut arweavePut ledger now =
        (.error .registrationFailed, [.ipfsPut, .ledgerRegister])) := by
  have hsp : storagePhase file.content wallet options ipfsPut arweavePut =
      (.ok { ipfsCid := some cid }, [.ipfsPut]) := by
    unfold storagePhase
    rcases h : options.preferredStorage with _ | c
    · simp [hput]
    · cases c
      · simp [hput]
      · exact absurd h hps
  constructor
  · intro s hled
    simp [uploadDocument, hv, hsp, hro, registerDocument, hpk, hled]
  · intro hled
    simp [uploadDocument, hv, hsp, hro, registerDocument, hpk, hled]

/-- A successful first (IPFS) fetch is returned as-is after a single backend
call. -/
theorem downloadDocument_ipfs_ok (doc : Document)
    (ipfsGet arweaveGet : String → Except Unit (List Nat)) (cid : String)
    (bytes : List Nat)
    (hc : doc.storageInfo.ipfsCid = some cid)
    (hb : ipfsGet cid = .ok bytes) :
    downloadDocument doc ipfsGet arweaveGet = (.ok bytes, [.ipfsGet]) := by
  simp [downloadDocument, hc, hb]

/-- C1 (amended): for the content-addressed orchestrator `uploadDocument`, every
successful upload's record id is the content hash, so two successful uploads of
byte-identical content — through any wallets, backends, options and times —
yield equal ids. (The auxiliary upload service `processFileUpload` instead
mints time-and-random ids; see the counterexample.) -/
theorem Claim1_upload_id_is_content_hash (file1 file2 : FileInput)
    (wallet1 wallet2 : Wallet) (md1 md2 : UploadMeta) (o1 o2 : UploadOptions)
    (p1 p2 a1 a2 : List Nat → Except Unit String)
    (l1 l2 : String → String → String → Except Unit String) (now1 now2 : Nat)
    (d1 d2 : Document)
    (hc : file2.content = file1.content)
    (h1 : resultDoc (uploadDocument file1 wallet1 md1 o1 p1 a1 l1 now1) = some d1)
    (h2 : resultDoc (uploadDocument file2 wallet2 md2 o2 p2 a2 l2 now2) = some d2) :
    d1.id = createDocumentHash file1.content ∧ d2.id = d1.id := by
  have s1 := (uploadDocument_ok_shape _ _ _ _ _ _ _ _ _ h1).1
  have s2 := (uploadDocument_ok_shape _ _ _ _ _ _ _ _ _ h2).1
  exact ⟨s1, by rw [s2, hc, s1]⟩

set_option maxRecDepth 100000 in
/-- C1 witness: two concrete uploads of the same (empty) content through
different wallets, backends and times both carry the SHA-256 digest of the
content as id. -/
theorem Claim1_witness :
    ("e3b0c44298fc1c149afbf4c8996fb92427ae41e4649b934ca495991b7852b855" : String) =
      createDocumentHash [] ∧
    ("e3b0c44298fc1c149afbf4c8996fb92427ae41e4649b934ca495991b7852b855" : String) =
      "e3b0c44298fc1c149afbf4c8996fb92427ae41e4649b934ca495991b7852b855" :=
  Claim1_upload_id_is_content_hash
    ⟨"a.txt", "text/plain", 0, 0, []⟩ ⟨"b.pdf", "application/pdf", 0, 0, []⟩
    { publicKey := some "W" } { publicKey := some "V" } {} {}
    { registerOnChain := some false } { registerOnChain := some false }
    (fun _ => .ok "cid1") (fun _ => .ok "cid2") (fun _ => .ok "t1") (fun _ => .ok "t2")
    (fun _ _ _ => .ok "s1") (fun _ _ _ => .ok "s2") 5 9
    { id := "e3b0c44298fc1c149afbf4c8996fb92427ae41e4649b934ca495991b7852b855",
      name := "a.txt", fileType := "text/plain", fileSize := 0, createdAt := 5,
      updatedAt := 5, storageInfo := { ipfsCid := some "cid1" }, owner := "W",
      version := 1, status := .active }
    { id := "e3b0c44298fc1c149afbf4c8996fb92427ae41e4649b934ca495991b7852b855",
      name := "b.pdf", fileType := "application/pdf", fileSize := 0, createdAt := 9,
      updatedAt := 9, storageInfo := { ipfsCid := some "cid2" }, owner := "V",
      version := 1, status := .active }
    rfl (by decide) (by decide)

/-- C1 counterexample: `processFileUpload` is an upload call that succeeds, yet
its record id is `doc-<time>-<rand>` — not the content hash — and uploading the
same bytes at another time yields a different id. -/
theorem Claim1_random_id_cex :
    (UploadSvc.processFileUpload [104, 105] "a.txt" "text/plain" 2 "u" true
        (fun _ => 0) 7 3).success = true ∧
    ((UploadSvc.processFileUpload [104, 105] "a.txt" "text/plain" 2 "u" true
        (fun _ => 0) 7 3).document.map (fun d => d.id)) = some "doc-7-3" ∧
    ((UploadSvc.processFileUpload [104, 105] "a.txt" "text/plain" 2 "u" true
        (fun _ => 0) 8 3).document.map (fun d => d.id)) = some "doc-8-3" ∧
    ("doc-7-3" : String) ≠ "doc-8-3" ∧
    ("doc-7-3" : String) ≠ createDocumentHash [104, 105] := by
  refine ⟨by decide, by decide, by decide, by decide, ?_⟩
  intro hne
  have hlen := congrArg String.length hne
  rw [length_createDocumentHash] at hlen
  exact absurd hlen (by decide)

/-- C2 counterexample: `downloadDocument` produces the identical result whether
or not the fetched bytes hash to the record's id (here: one record whose id is
the content hash of the fetched bytes and no ledger reference, one whose id
cannot match), so its result carries no verified flag that is true exactly on
hash match — the operation returns bytes only. -/
theorem Claim2_no_verified_flag_cex :
    downloadDocument
        { id := createDocumentHash [97], name := "n", fileType := "text/plain",
          fileSize := 1, createdAt := 0, updatedAt := 0,
          storageInfo := { ipfsCid := some "c" }, owner := "o", version := 1,
          status := .active }
        (fun _ => .ok [97]) (fun _ => .error ()) =
      downloadDocument
        { id := "deadbeef", name := "n", fileType := "text/plain",
          fileSize := 1, createdAt := 0, updatedAt := 0,
          storageInfo := { ipfsCid := some "c" }, owner := "o", version := 1,
          status := .active }
        (fun _ => .ok [97]) (fun _ => .error ()) ∧
    ("deadbeef" : String) ≠ createDocumentHash [97] ∧
    (downloadDocument
        { id := createDocumentHash [97], name := "n", fileType := "text/plain",
          fileSize := 1, createdAt := 0, updatedAt := 0,
          storageInfo := { ipfsCid := some "c" }, owner := "o", version := 1,
          status := .active }
        (fun _ => .ok [97]) (fun _ => .error ())).1 = .ok [97] := by
  refine ⟨?_, ?_, ?_⟩
  · rw [downloadDocument_ipfs_ok _ _ _ "c" [97] rfl rfl,
      downloadDocument_ipfs_ok _ _ _ "c" [97] rfl rfl]
  · intro hne
    have hlen := congrArg String.length hne
    rw [length_createDocumentHash] at hlen
    exact absurd hlen (by decide)
  · rw [downloadDocument_ipfs_ok _ _ _ "c" [97] rfl rfl]

/-- C2 (amended): `downloadDocument` returns only the bytes of the first
reachable backend: its result does not depend on the record's id at all (no
hash recompute, no ledger check, no verified flag), and a successful first
fetch is passed through unchanged. -/
theorem Claim2_download_returns_bytes_only (doc : Document) (newId : String)
    (ipfsGet arweaveGet : String → Except Unit (List Nat)) :
    downloadDocument { doc with id := newId } ipfsGet arweaveGet =
      downloadDocument doc ipfsGet arweaveGet ∧
    (∀ cid bytes, doc.storageInfo.ipfsCid = some cid → ipfsGet cid = .ok bytes →
      downloadDocument doc ipfsGet arweaveGet = (.ok bytes, [.ipfsGet])) := by
  constructor
  · rfl
  · intro cid bytes hc hb
    simp [downloadDocument, hc, hb]

/-- C2 witness: a concrete fetch is returned as-is with the single backend call. -/
theorem Claim2_witness :
    downloadDocument
        { id := "orig", name := "n", fileType := "text/plain", fileSize := 1,
          createdAt := 0, updatedAt := 0, storageInfo := { ipfsCid := some "c" },
          owner := "o", version := 1, status := .active }
        (fun _ => .ok [5]) (fun _ => .error ()) = (.ok [5], [.ipfsGet]) :=
  (Claim2_download_returns_bytes_only _ "x" _ _).2 "c" [5] rfl rfl

/-- C4 counterexample: storage (IPFS put) succeeded, ledger registration fails —
and the whole upload fails with the rethrown registration error instead of
succeeding with a partial-success signal. -/
theorem Claim4_registration_fatal_cex :
    uploadDocument ⟨"a.txt", "text/plain", 1, 0, [97]⟩ { publicKey := some "W" }
        {} {} (fun _ => .ok "cid") (fun _ => .ok "t") (fun _ _ _ => .error ()) 0 =
      (.error .registrationFailed, [.ipfsPut, .ledgerRegister]) :=
  (uploadDocument_reg_on ⟨"a.txt", "text/plain", 1, 0, [97]⟩ { publicKey := some "W" }
    {} {} (fun _ => .ok "cid") (fun _ => .ok "t") (fun _ _ _ => .error ()) 0 "cid" "W"
    (by decide) (by decide) rfl (by decide) rfl).2 rfl

/-- C4 (amended): a ledger registration failure is fatal to the upload — the
error propagates and no record is produced; a record that is active with its
chain signature unset arises only when registration was not requested
(`registerOnChain = false`). -/
theorem Claim4_ledger_failure_fails_upload (file : FileInput) (wallet : Wallet)
    (metadata : UploadMeta) (options : UploadOptions)
    (ipfsPut arweavePut : List Nat → Except Unit String)
    (ledger : String → String → String → Except Unit String) (now : Nat)
    (cid pk : String)
    (hv : (validateFile file).valid = true)
    (hps : options.preferredStorage ≠ some StorageChoice.arweave)
    (hput : ipfsPut file.content = .ok cid)
    (hpk : wallet.publicKey = some pk) :
    (options.registerOnChain ≠ some false →
      ledger (createDocumentHash file.content) (metadata.name.getD file.name) file.type
          = .error () →
      uploadDocument file wallet metadata options ipfsPut arweavePut ledger now =
        (.error .registrationFailed, [.ipfsPut, .ledgerRegister])) ∧
    (options.registerOnChain = some false →
      (resultDoc (uploadDocument file wallet metadata options ipfsPut arweavePut ledger now)).map
          (fun d => (d.status, d.storageInfo.solanaSignature)) =
        some (DocStatus.active, none)) := by
  constructor
  · intro hro hled
    exact (uploadDocument_reg_on file wallet metadata options ipfsPut arweavePut ledger now
      cid pk hv hps hput hro hpk).2 hled
  · intro hro
    rw [uploadDocument_reg_off file wallet metadata options ipfsPut arweavePut ledger now
      cid hv hps hput hro]
    rfl

/-- C4 witness: with registration off, the concrete upload yields an active
record with no chain signature. -/
theorem Claim4_witness :
    (resultDoc (uploadDocument ⟨"a.txt", "text/plain", 1, 0, [97]⟩
        { publicKey := some "W" } {} { registerOnChain := some false }
        (fun _ => .ok "cid") (fun _ => .ok "t") (fun _ _ _ => .error ()) 3)).map
      (fun d => (d.status, d.storageInfo.solanaSignature)) =
      some (DocStatus.active, none) :=
  (Claim4_ledger_failure_fails_upload _ _ _ _ _ _ _ _ "cid" "W" (by decide)
    (by decide) rfl rfl).2 rfl

/-- C5: the upload service's `calculateFileHash` is the mock whose digest comes
from the randomness source, not from the content: hashing the same buffer under
two random streams differs, and two different buffers under one stream agree —
contradicting its own documented SHA-256 contract and the determinism claim. -/
theorem Claim5_mock_hash_not_deterministic :
    UploadSvc.calculateFileHash [97] (fun _ => 0) ≠
      UploadSvc.calculateFileHash [97] (fun _ => 1) ∧
    UploadSvc.calculateFileHash [97] (fun _ => 0) =
      UploadSvc.calculateFileHash [98, 99] (fun _ => 0) := by
  exact ⟨by decide, rfl⟩

/-- C6: no upload path ever yields an active record without a storage locator —
every successful `uploadDocument` record is active with at least one locator
recorded, and the upload service's `processFileUpload` only ever returns
records in the initial processing state (never active). -/
theorem Claim6_no_active_without_locator :
    (∀ (file : FileInput) (wallet : Wallet) (metadata : UploadMeta)
        (options : UploadOptions) (ipfsPut arweavePut : List Nat → Except Unit String)
        (ledger : String → String → String → Except Unit String) (now : Nat),
      ((resultDoc (uploadDocument file wallet metadata options ipfsPut arweavePut ledger now)).all
          fun d => decide (d.status = DocStatus.active) &&
            (d.storageInfo.ipfsCid.isSome || d.storageInfo.arweaveTxId.isSome)) = true) ∧
    (∀ (fileBuffer : List Nat) (fileName mimeType : String) (size : Nat)
        (uploadedBy : String) (isSafe : Bool) (rand : Nat → Nat) (tNow randId : Nat),
      ((UploadSvc.processFileUpload fileBuffer fileName mimeType size uploadedBy
            isSafe rand tNow randId).document.all
          fun d => decide (d.status = DocStatus.processing)) = true) := by
  constructor
  · intro file wallet metadata options ipfsPut arweavePut ledger now
    cases hr : resultDoc (uploadDocument file wallet metadata options ipfsPut arweavePut ledger now) with
    | none => rfl
    | some d =>
      rcases uploadDocument_ok_shape _ _ _ _ _ _ _ _ _ hr with ⟨-, hst, hloc, -⟩
      simp [Option.all, hst]
      rcases hloc with h | h <;> simp [h]
  · intro fileBuffer fileName mimeType size uploadedBy isSafe rand tNow randId
    unfold UploadSvc.processFileUpload
    repeat' split
    all_goals simp [UploadSvc.failureResult, Option.all]

/-- `Map.set` on a key not yet present appends the entry. -/
theorem mapSet_of_not_mem {α : Type} (m : CacheMap α) (key : String)
    (item : CacheItem α) (h : key ∉ m.map Prod.fst) :
    mapSet m key item = m ++ [(key, item)] := by
  unfold mapSet
  rw [if_neg]
  intro hc
  rcases List.any_eq_true.mp hc with ⟨e, he, hkey⟩
  exact h (List.mem_map.mpr ⟨e, he, by simpa using hkey⟩)

/-- `setDocument` under capacity with a fresh key appends the entry with the
default expiration. -/
theorem setDocument_append (config : CacheConfig) (m : CacheMap Document)
    (documentId : String) (document : Document) (now : Nat)
    (hlen : m.length < config.maxSize) (hk : documentId ∉ m.map Prod.fst) :
    setDocument config m documentId document now none =
      m ++ [(documentId,
        { data := document, timestamp := now,
          expiresAt := now + config.defaultExpiration })] := by
  unfold setDocument
  rw [if_neg (by omega)]
  exact mapSet_of_not_mem _ _ _ hk

/-- Filling a cache with fresh keys while staying under capacity appends the
entries in insertion order. -/
theorem setAll_append (config : CacheConfig) :
    ∀ (es : List (String × Document × Nat)) (m : CacheMap Document),
      m.length + es.length ≤ config.maxSize →
      (∀ e ∈ es, e.1 ∉ m.map Prod.fst) →
      (es.map Prod.fst).Nodup →
      setAll config m es = m ++ entriesOf config es := by
  intro es
  induction es with
  | nil => intro m _ _ _; simp [setAll, entriesOf]
  | cons a t ih =>
    intro m hlen hfresh hnodup
    have hstep := setDocument_append config m a.1 a.2.1 a.2.2
      (by simp at hlen; omega) (hfresh a (List.mem_cons_self a t))
    have hrec := ih (m ++ [(a.1,
        { data := a.2.1, timestamp := a.2.2,
          expiresAt := a.2.2 + config.defaultExpiration })])
      (by simp at hlen ⊢; omega)
      (by
        intro e he
        simp only [List.map_append, List.mem_append]
        rintro (hm | hone)
        · exact hfresh e (List.mem_cons_of_mem a he) hm
        · rcases List.nodup_cons.mp hnodup with ⟨hna, -⟩
          simp at hone
          exact hna (hone ▸ List.mem_map_of_mem Prod.fst he))
      (List.nodup_cons.mp hnodup).2
    calc setAll config m (a :: t)
        = setAll config (setDocument config m a.1 a.2.1 a.2.2 none) t := by
          simp [setAll]
      _ = m ++ entriesOf config (a :: t) := by
          rw [hstep, hrec]
          simp [entriesOf]

/-- On a state already sorted by strictly increasing timestamps,
`removeOldestItems 1` removes exactly the first (oldest) entry. -/
theorem removeOldestItems_one (m : CacheMap Document)
    (hpw : m.Pairwise (fun a b => a.2.timestamp < b.2.timestamp)) :
    removeOldestItems m 1 = m.tail := by
  unfold removeOldestItems
  have hsorted : m.mergeSort (fun a b => a.2.timestamp ≤ b.2.timestamp) = m :=
    List.mergeSort_of_sorted (hpw.imp (fun h => by simpa using Nat.le_of_lt h))
  rw [hsorted]
  cases m with
  | nil => rfl
  | cons e rest =>
    simp [List.eraseP_cons_of_pos]

/-- `setDocument` at capacity on a timestamp-sorted state evicts exactly the
oldest entry, then appends the new one. -/
theorem setDocument_at_capacity (config : CacheConfig) (m : CacheMap Document)
    (documentId : String) (document : Document) (now : Nat)
    (hcap : config.maxSize ≤ m.length)
    (hpw : m.Pairwise (fun a b => a.2.timestamp < b.2.timestamp))
    (hk : documentId ∉ m.tail.map Prod.fst) :
    setDocument config m documentId document now none =
      m.tail ++ [(documentId,
        { data := document, timestamp := now,
          expiresAt := now + config.defaultExpiration })] := by
  unfold setDocument
  rw [if_pos hcap, removeOldestItems_one m hpw]
  exact mapSet_of_not_mem _ _ _ hk

/-- C8: inserting `maxSize + 1` entries under distinct keys with increasing
insertion times into an empty cache leaves exactly `maxSize` entries: the final
insert (at capacity) evicts exactly the single oldest-inserted entry, and the
state is the remaining entries in order. -/
theorem Claim8_eviction_bound (config : CacheConfig)
    (firsts : List (String × Document × Nat)) (lst : String × Document × Nat)
    (hn : firsts.length = config.maxSize) (hpos : 1 ≤ config.maxSize)
    (hkeys : ((firsts ++ [lst]).map Prod.fst).Nodup)
    (htimes : ((firsts ++ [lst]).map (fun e => e.2.2)).Pairwise (· < ·)) :
    setAll config [] (firsts ++ [lst]) =
      entriesOf config (firsts.tail ++ [lst]) ∧
    (setAll config [] (firsts ++ [lst])).length = config.maxSize := by
  have hkeysF : (firsts.map Prod.fst).Nodup := by
    have h2 := hkeys
    rw [List.map_append] at h2
    exact (List.nodup_append.mp h2).1
  have hfill : setAll config [] firsts = entriesOf config firsts := by
    simpa using setAll_append config firsts [] (by simpa using hn.le)
      (by simp) hkeysF
  have hsplit : setAll config [] (firsts ++ [lst]) =
      setDocument config (entriesOf config firsts) lst.1 lst.2.1 lst.2.2 none := by
    simp [setAll, List.foldl_append, ← hfill]
  have hpwE : (entriesOf config firsts).Pairwise
      (fun a b => a.2.timestamp < b.2.timestamp) := by
    have h1 : (firsts.map (fun e => e.2.2)).Pairwise (· < ·) := by
      simp only [List.map_append, List.pairwise_append] at htimes
      exact htimes.1
    have h2 : firsts.Pairwise (fun a b => a.2.2 < b.2.2) :=
      (List.pairwise_map).mp h1
    exact (List.pairwise_map).mpr (by simpa [entriesOf] using h2)
  have hkl : lst.1 ∉ (entriesOf config firsts).tail.map Prod.fst := by
    have hnotin : lst.1 ∉ firsts.map Prod.fst := by
      have h2 := hkeys
      rw [List.map_append] at h2
      rcases List.nodup_append.mp h2 with ⟨-, -, hdisj⟩
      intro hmem
      exact hdisj hmem (by simp)
    intro hmem
    apply hnotin
    have hsub : (entriesOf config firsts).tail.map Prod.fst ⊆
        (entriesOf config firsts).map Prod.fst := fun x hx =>
      List.map_subset _ (List.tail_subset _) hx
    have := hsub hmem
    simpa [entriesOf, List.map_map, Function.comp] using this
  have hcap : config.maxSize ≤ (entriesOf config firsts).length := by
    simp [entriesOf, hn]
  have hmain := setDocument_at_capacity config (entriesOf config firsts)
    lst.1 lst.2.1 lst.2.2 hcap hpwE hkl
  constructor
  · rw [hsplit, hmain]
    have htail : (entriesOf config firsts).tail = entriesOf config firsts.tail := by
      cases firsts with
      | nil => rfl
      | cons a t => simp [entriesOf]
    rw [htail]
    simp [entriesOf]
  · rw [hsplit, hmain]
    have : firsts ≠ [] := by
      intro h
      rw [h] at hn
      simp at hn
      omega
    simp [entriesOf, List.length_tail]
    cases firsts with
    | nil => simp at hn; omega
    | cons a t =>
      simp at hn ⊢
      omega

/-- C8 witness: capacity 2 (constructed through the cache constructor), three
distinct keys — exactly two entries remain and the oldest was evicted. -/
theorem Claim8_witness :
    setAll (mkCacheConfig (some 2) none) []
        [("k1", { id := "d1", name := "n", fileType := "t", fileSize := 0,
                  createdAt := 0, updatedAt := 0, storageInfo := {}, owner := "o",
                  version := 1, status := .active }, 1),
         ("k2", { id := "d2", name := "n", fileType := "t", fileSize := 0,
                  createdAt := 0, updatedAt := 0, storageInfo := {}, owner := "o",
                  version := 1, status := .active }, 2),
         ("k3", { id := "d3", name := "n", fileType := "t", fileSize := 0,
                  createdAt := 0, updatedAt := 0, storageInfo := {}, owner := "o",
                  version := 1, status := .active }, 3)] =
      entriesOf (mkCacheConfig (some 2) none)
        [("k2", { id := "d2", name := "n", fileType := "t", fileSize := 0,
                  createdAt := 0, updatedAt := 0, storageInfo := {}, owner := "o",
                  version := 1, status := .active }, 2),
         ("k3", { id := "d3", name := "n", fileType := "t", fileSize := 0,
                  createdAt := 0, updatedAt := 0, storageInfo := {}, owner := "o",
                  version := 1, status := .active }, 3)] ∧
    (setAll (mkCacheConfig (some 2) none) []
        [("k1", { id := "d1", name := "n", fileType := "t", fileSize := 0,
                  createdAt := 0, updatedAt := 0, storageInfo := {}, owner := "o",
                  version := 1, status := .active }, 1),
         ("k2", { id := "d2", name := "n", fileType := "t", fileSize := 0,
                  createdAt := 0, updatedAt := 0, storageInfo := {}, owner := "o",
                  version := 1, status := .active }, 2),
         ("k3", { id := "d3", name := "n", fileType := "t", fileSize := 0,
                  createdAt := 0, updatedAt := 0, storageInfo := {}, owner := "o",
                  version := 1, status := .active }, 3)]).length =
      (mkCacheConfig (some 2) none).maxSize :=
  Claim8_eviction_bound (mkCacheConfig (some 2) none)
    [("k1", { id := "d1", name := "n", fileType := "t", fileSize := 0,
              createdAt := 0, updatedAt := 0, storageInfo := {}, owner := "o",
              version := 1, status := .active }, 1),
     ("k2", { id := "d2", name := "n", fileType := "t", fileSize := 0,
              createdAt := 0, updatedAt := 0, storageInfo := {}, owner := "o",
              version := 1, status := .active }, 2)]
    ("k3", { id := "d3", name := "n", fileType := "t", fileSize := 0,
             createdAt := 0, updatedAt := 0, storageInfo := {}, owner := "o",
             version := 1, status := .active }, 3)
    (by decide) (by decide) (by decide) (by decide)

/-- C3 witness: concrete fallback run succeeding on the second backend. -/
theorem Claim3_witness :
    downloadDocument
        { id := "d", name := "n", fileType := "text/plain", fileSize := 1,
          createdAt := 0, updatedAt := 0,
          storageInfo := { ipfsCid := some "c", arweaveTxId := some "t" },
          owner := "o", version := 1, status := .active }
        (fun _ => .error ()) (fun _ => .ok [1, 2]) =
      (.ok [1, 2], [.ipfsGet, .arweaveGet]) :=
  (Claim3_fallback_order _ _ _ "c" "t" rfl rfl rfl).1 [1, 2] rfl

end Blokdoc

